import Mathlib

/-!
Shallow embedding of the certificate-generation core of the `certs`
repository (src/lib.rs, src/main.rs) and proofs of its specified
properties.

Coordinates are modelled as rationals (the source uses `f32`; the claims
checked here are exact algebraic facts about the arithmetic, not about
rounding).  Strings are Lean strings; byte buffers are lists of naturals.
External collaborators (image codec, TOML codec, the `arabic_reshaper`
crate, the filesystem and the SMTP transport) are passed in as explicit
function arguments, so every definition stays executable.
-/

namespace Certs

/-- Position in preview coordinate space (the egui Pos2 type). -/
structure Pos2 where
  x : ℚ
  y : ℚ
deriving DecidableEq, Repr

/-- Componentwise minimum of two positions (`Pos2::min`). -/
def Pos2.min (a b : Pos2) : Pos2 :=
  ⟨Min.min a.x b.x, Min.min a.y b.y⟩

/-- Componentwise maximum of two positions (`Pos2::max`). -/
def Pos2.max (a b : Pos2) : Pos2 :=
  ⟨Max.max a.x b.x, Max.max a.y b.y⟩

/-- Region of one field: two corner points in preview space (TextRect). -/
structure TextRect where
  p1 : Pos2
  p2 : Pos2
deriving DecidableEq, Repr

/-- The Default impl for TextRect: both corners at the origin. -/
def TextRect.defaultRect : TextRect :=
  ⟨⟨0, 0⟩, ⟨0, 0⟩⟩

/-- Source TextRect::min: normalize so p1 is the componentwise minimum
(top-left) and p2 the componentwise maximum (bottom-right). -/
def TextRect.min (r : TextRect) : TextRect :=
  ⟨r.p1.min r.p2, r.p1.max r.p2⟩

/-- Point in native pixel space (the skia Point type). -/
structure Point where
  x : ℚ
  y : ℚ
deriving DecidableEq, Repr

/-- Source Point::is_zero: both coordinates are zero. -/
def Point.isZero (p : Point) : Bool :=
  decide (p.x = 0 ∧ p.y = 0)

/-- The scaling closure in CertApp::generate_certificates: normalize the
rect with TextRect::min, then produce the top-left point multiplied by
2.5 and the width abs (p1.x - p2.x) * 2.5. -/
def scale_rect (r : TextRect) : Point × ℚ :=
  let points := r.min
  (⟨points.p1.x * 2.5, points.p1.y * 2.5⟩, |points.p1.x - points.p2.x| * 2.5)

/-- One canvas paint operation recorded by the renderer. -/
inductive DrawOp where
  | drawImage (dim : ℕ × ℕ)
  | drawText (text : String) (pos : Point) (width : ℚ) (fontSize : ℚ)
deriving DecidableEq, Repr

/-- The field loop of generate_certificate: zip the record fields with
the scaled points; a pair whose point is_zero holds is skipped, every
other pair is painted via draw_text at that point with that width. -/
def certTextOps (record : List String) (points : List (Point × ℚ))
    (font_size : ℚ) : List DrawOp :=
  (record.zip points).filterMap fun fp =>
    if (fp.2.1).isZero then none
    else some (DrawOp.drawText fp.1 fp.2.1 fp.2.2 font_size)

/-- Source generate_certificate: decode the template (failure aborts),
paint it at the origin, run the field loop, and hand the surface to
save_as under the output directory.  The returned pair is the list of
paint operations and the path passed to the write. -/
def generate_certificate (decode : List ℕ → Option (ℕ × ℕ))
    (record : List String) (points : List (Point × ℚ)) (template : List ℕ)
    (filename : String) (font_size : ℚ) : Option (List DrawOp × String) :=
  (decode template).map fun dim =>
    (DrawOp.drawImage dim :: certTextOps record points font_size,
      "output/" ++ filename)

/-- The output file name built in CertApp::generate_certificates: first
field, a hyphen, second field, and the .png suffix; indexing outside the
record aborts, modelled as none. -/
def outputFilename (record : List String) : Option String :=
  match record with
  | f0 :: f1 :: _ => some (f0 ++ "-" ++ f1 ++ ".png")
  | _ => none

/-- The batch body of `CertApp::generate_certificates`: scale every rect
once, then map every record to its named render job. -/
def generate_certificates (decode : List ℕ → Option (ℕ × ℕ))
    (records : List (List String)) (rects : List TextRect)
    (template : List ℕ) (font_size : ℚ) :
    List (Option (String × Option (List DrawOp × String))) :=
  let points := rects.map scale_rect
  records.map fun record =>
    (outputFilename record).map fun filename =>
      (filename,
        generate_certificate decode record points template filename font_size)

/-- The per-character ASCII test underlying the Rust str::is_ascii call. -/
def charIsAscii (c : Char) : Bool :=
  c.toNat < 128

/-- Source fix_text: if the text is not pure ASCII, reshape it (the
external arabic_reshaper crate, passed in as the reshape argument) and
collect its characters in reverse order; otherwise return the text
unchanged. -/
def fix_text (reshape : List Char → List Char) (text : String) : String :=
  if ¬ (text.data.all charIsAscii) then
    String.mk ((reshape text.data).reverse)
  else
    text

/-- The error kinds distinguished by the match in save_as. -/
inductive ErrorKind where
  | alreadyExists
  | permissionDenied
  | otherKind
deriving DecidableEq, Repr

/-- Outcome of save_as: either the encoded bytes are written to a path, or
the job aborts (the source panics). -/
inductive SaveResult where
  | wrote (path : String) (data : List ℕ)
  | aborted
deriving DecidableEq, Repr

/-- Source save_as: create the output directory (the result of that call
is passed in; none models success).  An already-exists failure is only
logged; permission-denied and every other failure abort.  On the surviving
paths the encoded bytes are written under the output directory. -/
def save_as (create_dir_result : Option ErrorKind) (filename : String)
    (data : List ℕ) : SaveResult :=
  match create_dir_result with
  | some ErrorKind.alreadyExists => SaveResult.wrote ("output/" ++ filename) data
  | some ErrorKind.permissionDenied => SaveResult.aborted
  | some ErrorKind.otherKind => SaveResult.aborted
  | none => SaveResult.wrote ("output/" ++ filename) data

/-- Email credentials: account identifier and secret. -/
structure EmailCreds where
  username : String
  password : String
deriving DecidableEq, Repr

/-- Process configuration: just the email credentials. -/
structure Config where
  email : EmailCreds
deriving DecidableEq, Repr

/-- The Default impl for EmailCreds: both fields empty. -/
def EmailCreds.defaultCreds : EmailCreds :=
  ⟨"", ""⟩

/-- The Default impl for Config: default (empty) credentials. -/
def Config.defaultConfig : Config :=
  ⟨EmailCreds.defaultCreds⟩

/-- The configuration part of CertApp::default: try to read the config
file (the read result is passed in; none models a failed read).  On
failure, serialize the default configuration, persist it, and keep that
string; on success keep the file contents.  Either way the kept string is
deserialized (a failure there aborts, modelled as none).  The result pairs
the loaded configuration with the persisted string, if any was written.
The TOML codec of the external toml crate is passed in as the two
function arguments. -/
def certApp_load_config (toml_to_string : Config → String)
    (toml_from_str : String → Option Config)
    (read_result : Option String) : Option (Config × Option String) :=
  match read_result with
  | some file => (toml_from_str file).map fun config => (config, none)
  | none =>
      let new_config := toml_to_string Config.defaultConfig
      (toml_from_str new_config).map fun config => (config, some new_config)

/-- One attachment of an email message. -/
structure Attachment where
  filename : String
  contentType : String
  body : List ℕ
deriving DecidableEq, Repr

/-- The message built by send_email: addresses, subject, attachments and
an optional plain-text body (the builder in the source adds none). -/
structure EmailMessage where
  sender : String
  recipient : String
  subject : String
  attachments : List Attachment
  textBody : Option String
deriving DecidableEq, Repr

/-- A submitted email: the message, the relay it was handed to, and the
credentials used to authenticate. -/
structure SentEmail where
  message : EmailMessage
  relay : String
  creds : EmailCreds
deriving DecidableEq, Repr

/-- Source send_email: read the generated file from the output directory
(the filesystem is passed in as read_file; a failed read aborts, modelled
as none), attach it as Certificate.png with the image/png content type
inside the multipart body, set the fixed Arabic subject, and submit the
message with the given credentials to the fixed relay. -/
def send_email (read_file : String → Option (List ℕ))
    (email_creds : EmailCreds) (filename to_addr : String) : Option SentEmail :=
  (read_file ("output/" ++ filename)).map fun bytes =>
    { message :=
        { sender := email_creds.username
          recipient := to_addr
          subject := "شهادة حضور"
          attachments := [⟨"Certificate.png", "image/png", bytes⟩]
          textBody := none }
      relay := "smtp.gmail.com"
      creds := email_creds }

end Certs

namespace Certs

/-- Claim C3: for every region, the scaled width equals
`|p1.x - p2.x| * 2.5`, and swapping the two corners changes neither the
scaled width nor the scaled top-left point. -/
theorem scale_rect_width_and_swap (r : TextRect) :
    (scale_rect r).2 = |r.p1.x - r.p2.x| * 2.5 ∧
      scale_rect ⟨r.p2, r.p1⟩ = scale_rect r := by
  obtain ⟨⟨x1, y1⟩, ⟨x2, y2⟩⟩ := r
  constructor
  · show |Min.min x1 x2 - Max.max x1 x2| * 2.5 = |x1 - x2| * 2.5
    rcases le_total x1 x2 with h | h
    · rw [min_eq_left h, max_eq_right h, abs_sub_comm]
    · rw [min_eq_right h, max_eq_left h, abs_sub_comm x1 x2]
  · simp [scale_rect, TextRect.min, Pos2.min, Pos2.max, min_comm, max_comm]

/-- Claim C4: the output name is exactly the first field, a hyphen, the
second field and `.png`; in particular fields `42` and `Amina` give
`42-Amina.png`. -/
theorem outputFilename_format :
    (∀ (f0 f1 : String) (rest : List String),
        outputFilename (f0 :: f1 :: rest) = some (f0 ++ "-" ++ f1 ++ ".png")) ∧
      outputFilename ["42", "Amina"] = some ("42-Amina.png") := by
  exact ⟨fun _ _ _ => rfl, rfl⟩

/-- Claim C5: for every ASCII-only input (the empty string included),
`fix_text` returns the input unchanged, whatever the reshaper does. -/
theorem fix_text_ascii_unchanged (reshape : List Char → List Char)
    (text : String) (h : text.data.all charIsAscii = true) :
    fix_text reshape text = text := by
  unfold fix_text
  simp [h]

/-- Witness for C5 at the empty string and at `"abc"`. -/
theorem fix_text_ascii_unchanged_witness :
    fix_text (fun cs => cs) "" = "" ∧ fix_text (fun cs => cs) "abc" = "abc" :=
  ⟨fix_text_ascii_unchanged (fun cs => cs) ("") (by decide),
    fix_text_ascii_unchanged (fun cs => cs) ("abc") (by decide)⟩

/-- Unfolding of the field loop on one leading field/point pair. -/
theorem certTextOps_cons (x : String) (xs : List String) (y : Point × ℚ)
    (ys : List (Point × ℚ)) (font_size : ℚ) :
    certTextOps (x :: xs) (y :: ys) font_size =
      if (y.1).isZero then certTextOps xs ys font_size
      else DrawOp.drawText x y.1 y.2 font_size :: certTextOps xs ys font_size := by
  by_cases h : (y.1).isZero <;> simp [certTextOps, h]

/-- A field/point pair whose point is zero contributes nothing: the loop
output is that of the lists with the pair removed. -/
theorem certTextOps_eraseIdx (font_size : ℚ) :
    ∀ (i : ℕ) (a : List String) (b : List (Point × ℚ))
      (hb : i < b.length), i < a.length →
      ((b.get ⟨i, hb⟩).1.isZero = true) →
      certTextOps a b font_size =
        certTextOps (a.eraseIdx i) (b.eraseIdx i) font_size := by
  intro i
  induction i with
  | zero =>
    intro a b hb ha hz
    match a, b with
    | x :: xs, y :: ys =>
      rw [certTextOps_cons]
      simp only [List.get] at hz
      simp [hz, List.eraseIdx]
  | succ n ih =>
    intro a b hb ha hz
    match a, b with
    | x :: xs, y :: ys =>
      have hb' : n < ys.length := by simpa using hb
      have ha' : n < xs.length := by simpa using ha
      have hz' : ((ys.get ⟨n, hb'⟩).1.isZero = true) := hz
      rw [List.eraseIdx, List.eraseIdx, certTextOps_cons, certTextOps_cons,
        ih xs ys hb' ha' hz']

/-- The element-pair at a common index is a member of the zip. -/
theorem get_mem_zip :
    ∀ (i : ℕ) (a : List String) (b : List (Point × ℚ))
      (ha : i < a.length) (hb : i < b.length),
      (a.get ⟨i, ha⟩, b.get ⟨i, hb⟩) ∈ a.zip b := by
  intro i
  induction i with
  | zero =>
    intro a b ha hb
    match a, b with
    | x :: xs, y :: ys => simp
  | succ n ih =>
    intro a b ha hb
    match a, b with
    | x :: xs, y :: ys =>
      have ha' : n < xs.length := by simpa using ha
      have hb' : n < ys.length := by simpa using hb
      simpa using Or.inr (ih xs ys ha' hb')

/-- Claim C2: a field whose region has both corners at the origin is
skipped by certificate generation: whenever the template decodes, the
render still succeeds and its paint operations are exactly those obtained
with that field and its region removed — no text is painted for it. -/
theorem generate_certificate_skips_unset_field
    (decode : List ℕ → Option (ℕ × ℕ)) (record : List String)
    (rects : List TextRect) (template : List ℕ) (filename : String)
    (font_size : ℚ) (dim : ℕ × ℕ) (i : ℕ)
    (ha : i < record.length) (hr : i < rects.length)
    (hdec : decode template = some dim)
    (hunset : rects.get ⟨i, hr⟩ = TextRect.defaultRect) :
    generate_certificate decode record (rects.map scale_rect) template
        filename font_size =
      some (DrawOp.drawImage dim ::
        certTextOps (record.eraseIdx i)
          ((rects.map scale_rect).eraseIdx i) font_size,
        "output/" ++ filename) := by
  have hb : i < (rects.map scale_rect).length := by simpa using hr
  have hget : (rects.map scale_rect).get ⟨i, hb⟩ =
      scale_rect (rects.get ⟨i, hr⟩) := by
    simp
  have hz : (((rects.map scale_rect).get ⟨i, hb⟩).1.isZero = true) := by
    rw [hget, hunset]
    norm_num [scale_rect, TextRect.defaultRect, TextRect.min, Pos2.min,
      Pos2.max, Point.isZero]
  rw [generate_certificate, hdec]
  simp only [Option.map_some']
  rw [certTextOps_eraseIdx font_size i record (rects.map scale_rect) hb ha hz]

/-- Witness for C2: a two-field record whose first region is unset. -/
theorem generate_certificate_skips_unset_field_witness :
    ((fun (_ : List ℕ) => some ((800 : ℕ), (600 : ℕ))) [] =
        some ((800 : ℕ), (600 : ℕ))) ∧
      (([TextRect.defaultRect, ⟨⟨1, 2⟩, ⟨3, 4⟩⟩] : List TextRect).get
          ⟨0, by decide⟩ = TextRect.defaultRect) ∧
      generate_certificate (fun _ => some ((800 : ℕ), (600 : ℕ)))
          ["a", "b"]
          (([TextRect.defaultRect, ⟨⟨1, 2⟩, ⟨3, 4⟩⟩] : List TextRect).map
            scale_rect)
          [] ("a-b.png") 40 =
        some (DrawOp.drawImage (800, 600) ::
          certTextOps (["a", "b"].eraseIdx 0)
            ((([TextRect.defaultRect, ⟨⟨1, 2⟩, ⟨3, 4⟩⟩] :
                List TextRect).map scale_rect).eraseIdx 0) 40,
          "output/" ++ "a-b.png") :=
  ⟨rfl, rfl,
    generate_certificate_skips_unset_field
      (fun _ => some ((800 : ℕ), (600 : ℕ))) ["a", "b"]
      [TextRect.defaultRect, ⟨⟨1, 2⟩, ⟨3, 4⟩⟩] [] ("a-b.png") 40
      (800, 600) 0 (by decide) (by decide) rfl rfl⟩

/-- Claim C10: the skip decision depends only on the scaled top-left
point, not on the region size: a field whose scaled top-left point is the
origin is dropped from the paint operations whatever its scaled width,
and a field whose two corners coincide at a non-origin point is painted
with a zero-width layout box at the scaled position. -/
theorem skip_decision_depends_only_on_position
    (record : List String) (rects : List TextRect) (font_size : ℚ) (i : ℕ)
    (ha : i < record.length) (hr : i < rects.length) :
    ((scale_rect (rects.get ⟨i, hr⟩)).1.isZero = true →
        certTextOps record (rects.map scale_rect) font_size =
          certTextOps (record.eraseIdx i)
            ((rects.map scale_rect).eraseIdx i) font_size) ∧
      (∀ c : Pos2, rects.get ⟨i, hr⟩ = ⟨c, c⟩ → ¬(c.x = 0 ∧ c.y = 0) →
        DrawOp.drawText (record.get ⟨i, ha⟩) ⟨c.x * 2.5, c.y * 2.5⟩ 0
            font_size ∈
          certTextOps record (rects.map scale_rect) font_size) := by
  have hb : i < (rects.map scale_rect).length := by simpa using hr
  have hget : (rects.map scale_rect).get ⟨i, hb⟩ =
      scale_rect (rects.get ⟨i, hr⟩) := by
    simp
  refine ⟨fun hzero => ?_, fun c hc hne => ?_⟩
  · exact certTextOps_eraseIdx font_size i record (rects.map scale_rect) hb ha
      (by rw [hget]; exact hzero)
  · have h25 : (2.5 : ℚ) ≠ 0 := by norm_num
    have hsc : scale_rect (rects.get ⟨i, hr⟩) =
        (⟨c.x * 2.5, c.y * 2.5⟩, 0) := by
      rw [hc]
      simp [scale_rect, TextRect.min, Pos2.min, Pos2.max]
    have hnz : ((⟨c.x * 2.5, c.y * 2.5⟩ : Point).isZero = false) := by
      simp only [Point.isZero, decide_eq_false_iff_not]
      rintro ⟨h1, h2⟩
      exact hne ⟨(mul_eq_zero.mp h1).resolve_right h25,
        (mul_eq_zero.mp h2).resolve_right h25⟩
    have hmem := get_mem_zip i record (rects.map scale_rect) ha hb
    rw [hget, hsc] at hmem
    rw [certTextOps]
    exact List.mem_filterMap.mpr
      ⟨(record.get ⟨i, ha⟩, (⟨c.x * 2.5, c.y * 2.5⟩, 0)), hmem, by simp [hnz]⟩

/-- Witness for C10: a width-10 region whose top-left scales to the
origin is skipped; a degenerate region at (2,2) is painted with width
zero at (5,5). -/
theorem skip_decision_depends_only_on_position_witness :
    ((scale_rect ((([⟨⟨0, 0⟩, ⟨4, 3⟩⟩] : List TextRect)).get
        ⟨0, by decide⟩)).1.isZero = true) ∧
      (certTextOps ["f"] (([⟨⟨0, 0⟩, ⟨4, 3⟩⟩] : List TextRect).map
          scale_rect) 40 =
        certTextOps (["f"].eraseIdx 0)
          ((([⟨⟨0, 0⟩, ⟨4, 3⟩⟩] : List TextRect).map scale_rect).eraseIdx 0)
          40) ∧
      (¬((2 : ℚ) = 0 ∧ (2 : ℚ) = 0)) ∧
      (DrawOp.drawText ("g") ⟨(2 : ℚ) * 2.5, (2 : ℚ) * 2.5⟩ 0 40 ∈
        certTextOps ["g"] (([⟨⟨2, 2⟩, ⟨2, 2⟩⟩] : List TextRect).map
          scale_rect) 40) := by
  have h1 : ((scale_rect ((([⟨⟨0, 0⟩, ⟨4, 3⟩⟩] : List TextRect)).get
      ⟨0, by decide⟩)).1.isZero = true) := by
    norm_num [scale_rect, TextRect.min, Pos2.min, Pos2.max, Point.isZero,
      List.get]
  have h2 : ¬((2 : ℚ) = 0 ∧ (2 : ℚ) = 0) := by simp
  exact ⟨h1,
    (skip_decision_depends_only_on_position ["f"] [⟨⟨0, 0⟩, ⟨4, 3⟩⟩] 40 0
      (by decide) (by decide)).1 h1, h2,
    (skip_decision_depends_only_on_position ["g"] [⟨⟨2, 2⟩, ⟨2, 2⟩⟩] 40 0
      (by decide) (by decide)).2 ⟨2, 2⟩ rfl h2⟩

/-- Claim C6: when saving, an already-exists outcome of creating the
output directory (and plain success) still reaches the file write, while
permission-denied and every other directory-creation failure abort. -/
theorem save_as_dir_result_handling (filename : String) (data : List ℕ) :
    save_as (some ErrorKind.alreadyExists) filename data =
        SaveResult.wrote ("output/" ++ filename) data ∧
      save_as none filename data =
        SaveResult.wrote ("output/" ++ filename) data ∧
      ∀ e : ErrorKind, e ≠ ErrorKind.alreadyExists →
        save_as (some e) filename data = SaveResult.aborted := by
  refine ⟨rfl, rfl, fun e he => ?_⟩
  cases e with
  | alreadyExists => exact absurd rfl he
  | permissionDenied => rfl
  | otherKind => rfl

/-- Witness for C6 at a concrete filename, with the permission-denied
error kind. -/
theorem save_as_dir_result_handling_witness :
    (ErrorKind.permissionDenied ≠ ErrorKind.alreadyExists) ∧
      save_as (some ErrorKind.permissionDenied) ("c.png") [] =
        SaveResult.aborted ∧
      save_as (some ErrorKind.alreadyExists) ("c.png") [] =
        SaveResult.wrote ("output/" ++ "c.png") [] :=
  ⟨by decide,
    (save_as_dir_result_handling ("c.png") []).2.2
      ErrorKind.permissionDenied (by decide),
    (save_as_dir_result_handling ("c.png") []).1⟩

/-- Claim C7: if reading the configuration file fails, the default
configuration with empty credentials is serialized, persisted, and used
(given that the TOML codec round-trips the default); if the read
succeeds, the file contents are deserialized and used, and nothing is
written. -/
theorem certApp_default_config_load
    (toml_to_string : Config → String)
    (toml_from_str : String → Option Config)
    (hround : toml_from_str (toml_to_string Config.defaultConfig) =
      some Config.defaultConfig) :
    (certApp_load_config toml_to_string toml_from_str none =
        some (Config.defaultConfig,
          some (toml_to_string Config.defaultConfig)) ∧
      Config.defaultConfig.email.username = "" ∧
      Config.defaultConfig.email.password = "") ∧
      ∀ (s : String) (c : Config), toml_from_str s = some c →
        certApp_load_config toml_to_string toml_from_str (some s) =
          some (c, none) := by
  refine ⟨⟨?_, rfl, rfl⟩, fun s c hs => ?_⟩
  · simp [certApp_load_config, hround]
  · simp [certApp_load_config, hs]

/-- Witness for C7 with a concrete round-tripping codec. -/
theorem certApp_default_config_load_witness :
    ((fun s => if s = "cfg" then some Config.defaultConfig else none)
        ((fun (_ : Config) => "cfg") Config.defaultConfig) =
      some Config.defaultConfig) ∧
      certApp_load_config (fun _ => "cfg")
          (fun s => if s = "cfg" then some Config.defaultConfig else none)
          none =
        some (Config.defaultConfig,
          some ((fun (_ : Config) => "cfg") Config.defaultConfig)) ∧
      certApp_load_config (fun _ => "cfg")
          (fun s => if s = "cfg" then some Config.defaultConfig else none)
          (some ("cfg")) =
        some (Config.defaultConfig, none) := by
  have hround : (fun s =>
      if s = "cfg" then some Config.defaultConfig else none)
        ((fun (_ : Config) => "cfg") Config.defaultConfig) =
      some Config.defaultConfig := by decide
  exact ⟨hround,
    (certApp_default_config_load (fun _ => "cfg")
      (fun s => if s = "cfg" then some Config.defaultConfig else none)
      hround).1.1,
    (certApp_default_config_load (fun _ => "cfg")
      (fun s => if s = "cfg" then some Config.defaultConfig else none)
      hround).2 ("cfg") Config.defaultConfig (by decide)⟩

/-- Claim C8: a successful dispatch reads the file from the output
directory, and the submitted message carries exactly one attachment —
named Certificate.png, typed image/png, holding those bytes — the fixed
Arabic subject, no text body, the given sender credentials, and goes to
the fixed relay. -/
theorem send_email_message_shape (read_file : String → Option (List ℕ))
    (creds : EmailCreds) (filename to_addr : String) (bytes : List ℕ)
    (hread : read_file ("output/" ++ filename) = some bytes) :
    ∃ sent : SentEmail,
      send_email read_file creds filename to_addr = some sent ∧
      sent.message.attachments = [⟨"Certificate.png", "image/png", bytes⟩] ∧
      sent.message.subject = "شهادة حضور" ∧
      sent.message.textBody = none ∧
      sent.message.sender = creds.username ∧
      sent.message.recipient = to_addr ∧
      sent.relay = "smtp.gmail.com" ∧
      sent.creds = creds := by
  refine ⟨⟨⟨creds.username, to_addr, "شهادة حضور",
      [⟨"Certificate.png", "image/png", bytes⟩], none⟩,
    "smtp.gmail.com", creds⟩, ?_, rfl, rfl, rfl, rfl, rfl, rfl, rfl⟩
  rw [send_email, hread]
  rfl

/-- Witness for C8 with a one-file filesystem and concrete credentials. -/
theorem send_email_message_shape_witness :
    ((fun p => if p = "output/c.png" then some [(1 : ℕ), 2, 3] else none)
        ("output/" ++ "c.png") = some [(1 : ℕ), 2, 3]) ∧
      ∃ sent : SentEmail,
        send_email
            (fun p =>
              if p = "output/c.png" then some [(1 : ℕ), 2, 3] else none)
            ⟨"user@gmail.com", "pw"⟩ ("c.png") ("dest@x.com") =
          some sent ∧
        sent.message.attachments =
          [⟨"Certificate.png", "image/png", [(1 : ℕ), 2, 3]⟩] ∧
        sent.message.subject = "شهادة حضور" ∧
        sent.message.textBody = none ∧
        sent.message.sender =
          (⟨"user@gmail.com", "pw"⟩ : EmailCreds).username ∧
        sent.message.recipient = "dest@x.com" ∧
        sent.relay = "smtp.gmail.com" ∧
        sent.creds = ⟨"user@gmail.com", "pw"⟩ := by
  have hread : (fun p =>
      if p = "output/c.png" then some [(1 : ℕ), 2, 3] else none)
        ("output/" ++ "c.png") = some [(1 : ℕ), 2, 3] := by decide
  exact ⟨hread,
    send_email_message_shape
      (fun p => if p = "output/c.png" then some [(1 : ℕ), 2, 3] else none)
      ⟨"user@gmail.com", "pw"⟩ ("c.png") ("dest@x.com") [(1 : ℕ), 2, 3]
      hread⟩

/-- Claim C1: on input that is not pure ASCII, fix_text returns exactly
the reshaped characters of the input in reversed order, and — given that
the reshaper maps each character to its presentation form, preserving the
character count, as the spec describes — the output has the same
character length as the input. -/
theorem fix_text_nonascii_reversed (reshape : List Char → List Char)
    (hlen : ∀ cs : List Char, (reshape cs).length = cs.length)
    (text : String) (h : ¬(text.data.all charIsAscii = true)) :
    (fix_text reshape text).length = text.length ∧
      (fix_text reshape text).data = (reshape text.data).reverse := by
  unfold fix_text
  rw [if_pos h]
  constructor
  · show ((reshape text.data).reverse).length = text.data.length
    rw [List.length_reverse, hlen]
  · rfl

/-- Witness for C1: a single Arabic letter under the identity reshaper. -/
theorem fix_text_nonascii_reversed_witness :
    (∀ cs : List Char, ((fun l => l) cs).length = cs.length) ∧
      (¬(("ل").data.all charIsAscii = true)) ∧
      (fix_text (fun l => l) ("ل")).length = ("ل").length ∧
      (fix_text (fun l => l) ("ل")).data =
        ((fun l => l) ("ل").data).reverse :=
  ⟨fun _ => rfl, by decide,
    (fix_text_nonascii_reversed (fun l => l) (fun _ => rfl) ("ل")
      (by decide)).1,
    (fix_text_nonascii_reversed (fun l => l) (fun _ => rfl) ("ل")
      (by decide)).2⟩

/-- Claim C9: fix_text is total and deterministic: every application
yields a result, and equal inputs give equal outputs, for any reshaper. -/
theorem fix_text_total_deterministic (reshape : List Char → List Char)
    (t1 t2 : String) (h : t1 = t2) :
    (∃ r : String, fix_text reshape t1 = r) ∧
      fix_text reshape t1 = fix_text reshape t2 :=
  ⟨⟨fix_text reshape t1, rfl⟩, by rw [h]⟩

/-- Witness for C9 at a concrete Arabic input. -/
theorem fix_text_total_deterministic_witness :
    (("س") : String) = ("س") ∧
      ((∃ r : String, fix_text (fun l => l) ("س") = r) ∧
        fix_text (fun l => l) ("س") = fix_text (fun l => l) ("س")) :=
  ⟨rfl, fix_text_total_deterministic (fun l => l) ("س") ("س") rfl⟩

end Certs
